import Mathlib

/-!
Verification of the CashRake campaign simulator (`py.py`).

The simulator is a deterministic month-by-month recurrence producing a
monthly table, from which a daily table (even intra-month split) and a
weekly table (Monday-week sums) are derived.  Python floats are embedded
as exact rationals (`ℚ`); the `ValueError` raised on an unknown growth
model is embedded as `Except.error`.
-/

namespace CashRake

/-- A calendar date (year, month, day), as in `datetime.date`. -/
structure Date where
  year : Nat
  month : Nat
  day : Nat
deriving DecidableEq, Repr

/-! ### Module-level constants (`py.py` lines 18-43) -/

def START_DATE : Date := ⟨2025, 11, 23⟩

def MONTHS : Nat := 12

def STARTING_PLAYERS : ℚ := 1000

def AVG_DEPOSIT : ℚ := 100

def AVG_BET : ℚ := 5

def WAGER_MULTIPLIER : ℚ := 7

def CASHBACK_RATE : ℚ := 3/100

def HOUSE_EDGE : ℚ := 4/100

def RAKEBACK_RATE : ℚ := 20/100

def CAP_RATE : ℚ := 33/100

def ACQ_COST_PER_PLAYER : ℚ := 40

def RETENTION_RATE : ℚ := 60/100

def GROWTH_RATES_MAP : List (Nat × ℚ) := [(1, 3), (2, 3/2), (3, 1/2)]

def DEFAULT_GROWTH_AFTER : ℚ := 35/100

def RAKEBACK_PER_WAGER_FRAC : ℚ := HOUSE_EDGE * RAKEBACK_RATE

def CASHBACK_PER_WAGER_FRAC : ℚ := HOUSE_EDGE * CASHBACK_RATE

def TOTAL_CASHRAKE_PER_WAGER_FRAC : ℚ :=
  RAKEBACK_PER_WAGER_FRAC + CASHBACK_PER_WAGER_FRAC

/-! ### Utility functions (`py.py` lines 48-61) -/

/-- Year/month reached `i` months after month `m` of year `y`
(`first + pd.DateOffset(months=i)` applied to a first-of-month date). -/
def addMonths (y m i : Nat) : Nat × Nat :=
  (y + (m - 1 + i) / 12, (m - 1 + i) % 12 + 1)

/-- `get_month_starts`: the first day of the start date's calendar month,
then one first-of-month date per simulated month. -/
def get_month_starts (start_date : Date) (months : Nat) : List Date :=
  (List.range months).map fun i =>
    let p := addMonths start_date.year start_date.month i
    ⟨p.1, p.2, 1⟩

/-- Gregorian leap-year test, as used by `calendar.monthrange`. -/
def isLeapYear (y : Nat) : Bool :=
  (y % 4 == 0 && y % 100 != 0) || y % 400 == 0

/-- `month_days`: number of days in the given calendar month
(`calendar.monthrange(year, month)[1]`). -/
def month_days (year month : Nat) : Nat :=
  if month = 2 then (if isLeapYear year then 29 else 28)
  else if month = 4 ∨ month = 6 ∨ month = 9 ∨ month = 11 then 30
  else 31

/-- Body of `get_growth_for_month`, parametrised by the lookup map
(the source reads the module-level `GROWTH_RATES_MAP`). -/
def growth_lookup (m : List (Nat × ℚ)) (idx : Nat) : ℚ :=
  match m.lookup idx with
  | some v => v
  | none =>
    if idx > 3 then DEFAULT_GROWTH_AFTER
    else ((m.lookup idx).getD DEFAULT_GROWTH_AFTER)

/-- `get_growth_for_month`: exact lookup in `GROWTH_RATES_MAP`, default
`DEFAULT_GROWTH_AFTER` beyond it. -/
def get_growth_for_month (idx : Nat) : ℚ :=
  growth_lookup GROWTH_RATES_MAP idx

/-! ### Records (rows of the three dataframes) -/

/-- One row of `monthly_df` (`py.py` lines 106-128). -/
structure MonthRecord where
  month_index : Nat
  month_start : Date
  growth_param : ℚ
  growth_model : String
  retained_players : ℚ
  new_players : ℚ
  total_players : ℚ
  deposits : ℚ
  lifetime_deposits : ℚ
  lifetime_cap : ℚ
  remaining_cap_before : ℚ
  expected_cashback : ℚ
  expected_rakeback : ℚ
  expected_total_cashrake : ℚ
  actual_cashrake_paid : ℚ
  lifetime_cap_used : ℚ
  remaining_cap_after : ℚ
  total_wagering : ℚ
  gross_revenue : ℚ
  acquisition_cost : ℚ
  net_profit : ℚ
deriving DecidableEq, Repr

/-- One row of `daily_df` (`py.py` lines 144-157). -/
structure DailyRecord where
  date : Date
  month_index : Nat
  players : ℚ
  deposits : ℚ
  total_wagering : ℚ
  gross_revenue : ℚ
  expected_cashback : ℚ
  expected_rakeback : ℚ
  expected_total_cashrake : ℚ
  actual_cashrake_paid : ℚ
  acquisition_cost : ℚ
  net_profit : ℚ
deriving DecidableEq, Repr

/-- One row of `weekly_df`: the week key plus the sum of every numeric
column of `daily_df` over that week (`py.py` lines 163-167). -/
structure WeeklyRecord where
  week_start : Int
  month_index : Nat
  players : ℚ
  deposits : ℚ
  total_wagering : ℚ
  gross_revenue : ℚ
  expected_cashback : ℚ
  expected_rakeback : ℚ
  expected_total_cashrake : ℚ
  actual_cashrake_paid : ℚ
  acquisition_cost : ℚ
  net_profit : ℚ
deriving DecidableEq, Repr

/-! ### Core simulation (`py.py` lines 66-130) -/

/-- The running accumulators of the generation loop. -/
structure SimState where
  current_players : ℚ
  lifetime_deposits : ℚ
  lifetime_cap_used : ℚ
deriving DecidableEq, Repr

/-- The growth-model branch of the loop body (`py.py` lines 75-85): yields
`(retained, new_players, total_players)` or the `ValueError`. -/
def playerCounts (growth_model : String) (growth_param current_players : ℚ) :
    Except String (ℚ × ℚ × ℚ) :=
  if growth_model = "retained_plus_new" then
    let retained := current_players * RETENTION_RATE
    let new_players := current_players * growth_param
    Except.ok (retained, new_players, retained + new_players)
  else if growth_model = "simple_growth" then
    let mult := 1 + growth_param
    let total_players := current_players * mult
    let retained := current_players * RETENTION_RATE
    Except.ok (retained, max (total_players - retained) 0, total_players)
  else
    Except.error "Unknown growth_model"

/-- One iteration of the monthly loop (`py.py` lines 73-130): builds the
month's row and the next accumulator state. -/
def monthStep (growth_model : String) (st : SimState) (m_idx : Nat)
    (mstart : Date) : Except String (MonthRecord × SimState) :=
  let growth_param := get_growth_for_month m_idx
  match playerCounts growth_model growth_param st.current_players with
  | Except.error e => Except.error e
  | Except.ok (retained, new_players, total_players) =>
    let deposits := total_players * AVG_DEPOSIT
    let lifetime_deposits := st.lifetime_deposits + deposits
    let lifetime_cap := lifetime_deposits * CAP_RATE
    let remaining_cap_before := max 0 (lifetime_cap - st.lifetime_cap_used)
    let total_wagering := deposits * WAGER_MULTIPLIER
    let gross_revenue := total_wagering * HOUSE_EDGE
    let expected_cashback := total_wagering * CASHBACK_PER_WAGER_FRAC
    let expected_rakeback := total_wagering * RAKEBACK_PER_WAGER_FRAC
    let expected_total_cashrake := expected_cashback + expected_rakeback
    let actual_cashrake_paid := min expected_total_cashrake remaining_cap_before
    let lifetime_cap_used := st.lifetime_cap_used + actual_cashrake_paid
    let remaining_cap_after := max 0 (lifetime_cap - lifetime_cap_used)
    let acq_cost := new_players * ACQ_COST_PER_PLAYER
    let net_profit := gross_revenue - actual_cashrake_paid - acq_cost
    Except.ok
      ({ month_index := m_idx
         month_start := mstart
         growth_param := growth_param
         growth_model := growth_model
         retained_players := retained
         new_players := new_players
         total_players := total_players
         deposits := deposits
         lifetime_deposits := lifetime_deposits
         lifetime_cap := lifetime_cap
         remaining_cap_before := remaining_cap_before
         expected_cashback := expected_cashback
         expected_rakeback := expected_rakeback
         expected_total_cashrake := expected_total_cashrake
         actual_cashrake_paid := actual_cashrake_paid
         lifetime_cap_used := lifetime_cap_used
         remaining_cap_after := remaining_cap_after
         total_wagering := total_wagering
         gross_revenue := gross_revenue
         acquisition_cost := acq_cost
         net_profit := net_profit },
       { current_players := total_players
         lifetime_deposits := lifetime_deposits
         lifetime_cap_used := lifetime_cap_used })

/-- The monthly loop over `enumerate(month_starts, start=1)`. -/
def simLoop (growth_model : String) :
    List (Nat × Date) → SimState → Except String (List MonthRecord)
  | [], _ => Except.ok []
  | (m_idx, mstart) :: rest, st =>
    match monthStep growth_model st m_idx mstart with
    | Except.error e => Except.error e
    | Except.ok (r, st2) =>
      match simLoop growth_model rest st2 with
      | Except.error e => Except.error e
      | Except.ok tl => Except.ok (r :: tl)

/-! ### Daily disaggregation (`py.py` lines 137-158) -/

/-- The daily rows of one month: one row per calendar day, each flow field
the month's value times `frac = 1/ndays`. -/
def dailyForMonth (r : MonthRecord) : List DailyRecord :=
  let y := r.month_start.year
  let m := r.month_start.month
  let ndays := month_days y m
  (List.range ndays).map fun d =>
    let frac : ℚ := 1 / ndays
    { date := ⟨y, m, d + 1⟩
      month_index := r.month_index
      players := r.total_players * frac
      deposits := r.deposits * frac
      total_wagering := r.total_wagering * frac
      gross_revenue := r.gross_revenue * frac
      expected_cashback := r.expected_cashback * frac
      expected_rakeback := r.expected_rakeback * frac
      expected_total_cashrake := r.expected_total_cashrake * frac
      actual_cashrake_paid := r.actual_cashrake_paid * frac
      acquisition_cost := r.acquisition_cost * frac
      net_profit := r.net_profit * frac }

/-- `daily_df`: the concatenation of each month's daily rows, in month
order. -/
def dailyFromMonthly (ms : List MonthRecord) : List DailyRecord :=
  ms.flatMap dailyForMonth

/-! ### Weekly aggregation (`py.py` lines 163-167) -/

/-- Day number of a date in the proleptic Gregorian calendar (valid for
`year ≥ 1`); day 0 is 0000-03-01, a Wednesday. -/
def dayNumber (dt : Date) : Nat :=
  let y := if dt.month ≤ 2 then dt.year - 1 else dt.year
  let m := if dt.month ≤ 2 then dt.month + 9 else dt.month - 3
  y * 365 + y / 4 - y / 100 + y / 400 + (153 * m + 2) / 5 + (dt.day - 1)

/-- The pandas `to_period('W')` key: day number of the Monday starting the
week that contains `dt`. -/
def week_start_key (dt : Date) : Int :=
  let n : Int := dayNumber dt
  n - (n + 2) % 7

/-- Insert a key into an ascending duplicate-free key list. -/
def insertKey (k : Int) : List Int → List Int
  | [] => [k]
  | x :: xs =>
    if k < x then k :: x :: xs
    else if k = x then x :: xs
    else x :: insertKey k xs

/-- The distinct group keys in ascending order, as produced by
`groupby('week_start')`. -/
def sortedKeys (l : List Int) : List Int := l.foldr insertKey []

/-- The weekly row for key `k`: sum of every numeric daily column over the
daily rows whose week key is `k`. -/
def sumWeek (daily : List DailyRecord) (k : Int) : WeeklyRecord :=
  let grp := daily.filter fun d => week_start_key d.date = k
  { week_start := k
    month_index := (grp.map DailyRecord.month_index).sum
    players := (grp.map DailyRecord.players).sum
    deposits := (grp.map DailyRecord.deposits).sum
    total_wagering := (grp.map DailyRecord.total_wagering).sum
    gross_revenue := (grp.map DailyRecord.gross_revenue).sum
    expected_cashback := (grp.map DailyRecord.expected_cashback).sum
    expected_rakeback := (grp.map DailyRecord.expected_rakeback).sum
    expected_total_cashrake := (grp.map DailyRecord.expected_total_cashrake).sum
    actual_cashrake_paid := (grp.map DailyRecord.actual_cashrake_paid).sum
    acquisition_cost := (grp.map DailyRecord.acquisition_cost).sum
    net_profit := (grp.map DailyRecord.net_profit).sum }

/-- `weekly_df`: one summed row per distinct week key, keys ascending. -/
def weeklyFromDaily (daily : List DailyRecord) : List WeeklyRecord :=
  (sortedKeys (daily.map fun d => week_start_key d.date)).map (sumWeek daily)

/-- `simulate`: the three tables, or the `ValueError` on an unknown growth
model (in which case no table is produced). -/
def simulate (growth_model : String) :
    Except String (List MonthRecord × List DailyRecord × List WeeklyRecord) :=
  match simLoop growth_model
      (List.enumFrom 1 (get_month_starts START_DATE MONTHS))
      ⟨STARTING_PLAYERS, 0, 0⟩ with
  | Except.error e => Except.error e
  | Except.ok monthly =>
    let daily := dailyFromMonthly monthly
    let weekly := weeklyFromDaily daily
    Except.ok (monthly, daily, weekly)

/-- Modelled from the spec: the CLI (`main`, using `argparse` `choices`,
library code not in the repository) accepts `--growth-model` only from the
enumerated choices; an invalid value is rejected during argument
validation, before `simulate` runs, with a non-zero exit. -/
def cli_accepts_growth_model (s : String) : Bool :=
  s == "retained_plus_new" || s == "simple_growth"

end CashRake

namespace CashRake

/-! ### Structural lemmas about the simulation step -/

theorem get_growth_eq (idx : Nat) :
    get_growth_for_month idx =
      if idx = 1 then (3 : ℚ) else if idx = 2 then 3/2 else if idx = 3 then 1/2
      else 35/100 := by
  match idx with
  | 0 => rfl
  | 1 => rfl
  | 2 => rfl
  | 3 => rfl
  | (n+4) =>
    simp only [get_growth_for_month, growth_lookup, GROWTH_RATES_MAP]
    have h1 : n + 4 ≠ 1 := by omega
    have h2 : n + 4 ≠ 2 := by omega
    have h3 : n + 4 ≠ 3 := by omega
    simp [List.lookup, Nat.beq_eq_true_eq, h1, h2, h3, DEFAULT_GROWTH_AFTER]

theorem get_growth_nonneg (idx : Nat) : 0 ≤ get_growth_for_month idx := by
  rw [get_growth_eq]
  split_ifs <;> norm_num

theorem playerCounts_rpn (g cp : ℚ) :
    playerCounts "retained_plus_new" g cp =
      Except.ok (cp * RETENTION_RATE, cp * g, cp * RETENTION_RATE + cp * g) := rfl

theorem playerCounts_sg (g cp : ℚ) :
    playerCounts "simple_growth" g cp =
      Except.ok (cp * RETENTION_RATE, max (cp * (1 + g) - cp * RETENTION_RATE) 0,
        cp * (1 + g)) := by
  unfold playerCounts
  rw [if_neg (by decide), if_pos rfl]

theorem playerCounts_bad (gm : String) (g cp : ℚ)
    (h1 : gm ≠ "retained_plus_new") (h2 : gm ≠ "simple_growth") :
    playerCounts gm g cp = Except.error "Unknown growth_model" := by
  unfold playerCounts
  rw [if_neg h1, if_neg h2]

theorem monthStep_ok (gm : String) (st : SimState) (i : Nat) (d : Date)
    (r : MonthRecord) (st2 : SimState)
    (h : monthStep gm st i d = Except.ok (r, st2)) :
    r.month_index = i ∧ r.month_start = d ∧
    r.growth_param = get_growth_for_month i ∧ r.growth_model = gm ∧
    playerCounts gm (get_growth_for_month i) st.current_players =
      Except.ok (r.retained_players, r.new_players, r.total_players) ∧
    r.deposits = r.total_players * AVG_DEPOSIT ∧
    r.lifetime_deposits = st.lifetime_deposits + r.deposits ∧
    r.lifetime_cap = r.lifetime_deposits * CAP_RATE ∧
    r.remaining_cap_before = max 0 (r.lifetime_cap - st.lifetime_cap_used) ∧
    r.total_wagering = r.deposits * WAGER_MULTIPLIER ∧
    r.gross_revenue = r.total_wagering * HOUSE_EDGE ∧
    r.expected_cashback = r.total_wagering * CASHBACK_PER_WAGER_FRAC ∧
    r.expected_rakeback = r.total_wagering * RAKEBACK_PER_WAGER_FRAC ∧
    r.expected_total_cashrake = r.expected_cashback + r.expected_rakeback ∧
    r.actual_cashrake_paid = min r.expected_total_cashrake r.remaining_cap_before ∧
    r.lifetime_cap_used = st.lifetime_cap_used + r.actual_cashrake_paid ∧
    r.remaining_cap_after = max 0 (r.lifetime_cap - r.lifetime_cap_used) ∧
    r.acquisition_cost = r.new_players * ACQ_COST_PER_PLAYER ∧
    r.net_profit = r.gross_revenue - r.actual_cashrake_paid - r.acquisition_cost ∧
    st2.current_players = r.total_players ∧
    st2.lifetime_deposits = r.lifetime_deposits ∧
    st2.lifetime_cap_used = r.lifetime_cap_used := by
  simp only [monthStep] at h
  split at h
  · exact absurd h (by simp)
  · rename_i retained new_players total_players heq
    simp only [Except.ok.injEq, Prod.mk.injEq] at h
    obtain ⟨hr, hst⟩ := h
    subst hr hst
    refine ⟨rfl, rfl, rfl, rfl, heq, rfl, rfl, rfl, rfl, rfl, rfl, rfl, rfl,
      rfl, rfl, rfl, rfl, rfl, rfl, rfl, rfl, rfl⟩

end CashRake

namespace CashRake

theorem simLoop_cons_ok (gm : String) (i : Nat) (d : Date)
    (rest : List (Nat × Date)) (st : SimState) (ms : List MonthRecord)
    (h : simLoop gm ((i, d) :: rest) st = Except.ok ms) :
    ∃ r st2 tl, monthStep gm st i d = Except.ok (r, st2) ∧
      simLoop gm rest st2 = Except.ok tl ∧ ms = r :: tl := by
  simp only [simLoop] at h
  split at h
  · exact absurd h (by simp)
  · rename_i r st2 heq
    split at h
    · exact absurd h (by simp)
    · rename_i tl heq2
      simp only [Except.ok.injEq] at h
      exact ⟨r, st2, tl, heq, heq2, h.symm⟩

theorem monthStep_ok_of_valid (gm : String) (st : SimState) (i : Nat) (d : Date)
    (hgm : gm = "retained_plus_new" ∨ gm = "simple_growth") :
    ∃ p, monthStep gm st i d = Except.ok p := by
  simp only [monthStep]
  rcases hgm with h | h <;> subst h
  · rw [playerCounts_rpn]
    exact ⟨_, rfl⟩
  · rw [playerCounts_sg]
    exact ⟨_, rfl⟩

theorem simLoop_ok_of_valid (gm : String)
    (hgm : gm = "retained_plus_new" ∨ gm = "simple_growth") :
    ∀ (entries : List (Nat × Date)) (st : SimState),
      ∃ ms, simLoop gm entries st = Except.ok ms := by
  intro entries
  induction entries with
  | nil => exact fun st => ⟨[], rfl⟩
  | cons e rest ih =>
    intro st
    obtain ⟨⟨r, st2⟩, hstep⟩ := monthStep_ok_of_valid gm st e.1 e.2 hgm
    obtain ⟨tl, htl⟩ := ih st2
    exact ⟨r :: tl, by simp only [simLoop, hstep, htl]⟩

theorem simulate_ok_elim (gm : String)
    (ms : List MonthRecord) (dy : List DailyRecord) (wk : List WeeklyRecord)
    (h : simulate gm = Except.ok (ms, dy, wk)) :
    simLoop gm (List.enumFrom 1 (get_month_starts START_DATE MONTHS))
        ⟨STARTING_PLAYERS, 0, 0⟩ = Except.ok ms ∧
    dy = dailyFromMonthly ms ∧ wk = weeklyFromDaily (dailyFromMonthly ms) := by
  simp only [simulate] at h
  split at h
  · exact absurd h (by simp)
  · rename_i monthly heq
    simp only [Except.ok.injEq, Prod.mk.injEq] at h
    obtain ⟨h1, h2, h3⟩ := h
    subst h1
    exact ⟨heq, h2.symm, h3.symm⟩

theorem simLoop_error_cons (gm : String) (i : Nat) (d : Date)
    (rest : List (Nat × Date)) (st : SimState)
    (h1 : gm ≠ "retained_plus_new") (h2 : gm ≠ "simple_growth") :
    simLoop gm ((i, d) :: rest) st = Except.error "Unknown growth_model" := by
  have hstep : monthStep gm st i d = Except.error "Unknown growth_model" := by
    simp only [monthStep]
    rw [playerCounts_bad gm _ _ h1 h2]
  simp only [simLoop, hstep]

theorem monthEntries_cons :
    ∃ rest, List.enumFrom 1 (get_month_starts START_DATE MONTHS) =
      (1, (⟨2025, 11, 1⟩ : Date)) :: rest :=
  ⟨_, rfl⟩

/-- C5: on a growth-model string other than `retained_plus_new` or
`simple_growth`, `simulate` fails with the invalid-configuration error in
the first month's computation and produces no tables, and the CLI's
argument validation (modelled from the spec) rejects the value before
`simulate` would run. -/
theorem claim_C5 (gm : String)
    (h1 : gm ≠ "retained_plus_new") (h2 : gm ≠ "simple_growth") :
    simulate gm = Except.error "Unknown growth_model" ∧
    (∀ t, simulate gm ≠ Except.ok t) ∧
    cli_accepts_growth_model gm = false := by
  obtain ⟨rest, hrest⟩ := monthEntries_cons
  have hsim : simulate gm = Except.error "Unknown growth_model" := by
    simp only [simulate, hrest, simLoop_error_cons gm _ _ _ _ h1 h2]
  refine ⟨hsim, fun t ht => by rw [hsim] at ht; exact absurd ht (by simp), ?_⟩
  simp [cli_accepts_growth_model, h1, h2]

/-- C5 witness: the concrete invalid selector `"bogus"`. -/
theorem claim_C5_witness :
    simulate "bogus" = Except.error "Unknown growth_model" ∧
    (∀ t, simulate "bogus" ≠ Except.ok t) ∧
    cli_accepts_growth_model "bogus" = false :=
  claim_C5 "bogus" (by decide) (by decide)

/-- C6: the growth parameter is the exact map value for indices 1-3 and
the default 0.35 for every index ≥ 4, whatever values the map holds at
indices 1-3. -/
theorem claim_C6 :
    (∀ v1 v2 v3 : ℚ, ∀ idx, 4 ≤ idx →
      growth_lookup [(1, v1), (2, v2), (3, v3)] idx = DEFAULT_GROWTH_AFTER) ∧
    get_growth_for_month 1 = 3 ∧ get_growth_for_month 2 = 3/2 ∧
    get_growth_for_month 3 = 1/2 ∧
    (∀ idx, 4 ≤ idx → get_growth_for_month idx = 35/100) := by
  refine ⟨?_, rfl, rfl, rfl, ?_⟩
  · intro v1 v2 v3 idx hidx
    have e1 : idx ≠ 1 := by omega
    have e2 : idx ≠ 2 := by omega
    have e3 : idx ≠ 3 := by omega
    have b1 : (idx == 1) = false := by simpa using e1
    have b2 : (idx == 2) = false := by simpa using e2
    have b3 : (idx == 3) = false := by simpa using e3
    simp only [growth_lookup, List.lookup, b1, b2, b3]
    simp [show 3 < idx by omega]
  · intro idx hidx
    rw [get_growth_eq]
    have e1 : idx ≠ 1 := by omega
    have e2 : idx ≠ 2 := by omega
    have e3 : idx ≠ 3 := by omega
    simp [e1, e2, e3]

/-- C6 witness: concrete indices on both sides of the boundary. -/
theorem claim_C6_witness :
    growth_lookup [(1, 7), (2, 8), (3, 9)] 4 = DEFAULT_GROWTH_AFTER ∧
    get_growth_for_month 1 = 3 ∧ get_growth_for_month 2 = 3/2 ∧
    get_growth_for_month 3 = 1/2 ∧
    get_growth_for_month 12 = 35/100 :=
  ⟨claim_C6.1 7 8 9 4 (by norm_num), claim_C6.2.1, claim_C6.2.2.1,
    claim_C6.2.2.2.1, claim_C6.2.2.2.2 12 (by norm_num)⟩

end CashRake

namespace CashRake

/-! ### Invariants of the monthly loop -/

/-- Loop-accumulator invariant: non-negative accumulators, cap used within
the lifetime cap. -/
def GoodState (st : SimState) : Prop :=
  0 ≤ st.current_players ∧ 0 ≤ st.lifetime_deposits ∧
  0 ≤ st.lifetime_cap_used ∧
  st.lifetime_cap_used ≤ st.lifetime_deposits * CAP_RATE

theorem playerCounts_nonneg (gm : String) (g cp ret new tot : ℚ)
    (h : playerCounts gm g cp = Except.ok (ret, new, tot))
    (hcp : 0 ≤ cp) (hg : 0 ≤ g) :
    0 ≤ ret ∧ 0 ≤ new ∧ 0 ≤ tot := by
  unfold playerCounts at h
  split_ifs at h with h1 h2
  · simp only [Except.ok.injEq, Prod.mk.injEq] at h
    obtain ⟨e1, e2, e3⟩ := h
    subst e1 e2 e3
    refine ⟨mul_nonneg hcp (by norm_num [RETENTION_RATE]), mul_nonneg hcp hg, ?_⟩
    have := mul_nonneg hcp (show (0:ℚ) ≤ RETENTION_RATE by norm_num [RETENTION_RATE])
    have := mul_nonneg hcp hg
    linarith
  · simp only [Except.ok.injEq, Prod.mk.injEq] at h
    obtain ⟨e1, e2, e3⟩ := h
    subst e1 e2 e3
    exact ⟨mul_nonneg hcp (by norm_num [RETENTION_RATE]), le_max_right _ _,
      mul_nonneg hcp (by linarith)⟩

theorem simLoop_records (gm : String) :
    ∀ (entries : List (Nat × Date)) (st : SimState) (ms : List MonthRecord),
      simLoop gm entries st = Except.ok ms →
      ∀ r ∈ ms, ∃ st1 st2 i d, monthStep gm st1 i d = Except.ok (r, st2) := by
  intro entries
  induction entries with
  | nil =>
    intro st ms h r hr
    simp only [simLoop, Except.ok.injEq] at h
    subst h
    exact absurd hr (by simp)
  | cons e rest ih =>
    intro st ms h r hr
    obtain ⟨r0, st2, tl, hstep, htl, hms⟩ := simLoop_cons_ok gm e.1 e.2 rest st ms h
    subst hms
    rcases List.mem_cons.mp hr with h1 | h1
    · subst h1
      exact ⟨st, st2, e.1, e.2, hstep⟩
    · exact ih st2 tl htl r h1

/-- C1: every month produced by `simulate` pays
`min(expected_total_cashrake, remaining_cap_before)`, hence pays no more
than either bound. -/
theorem claim_C1 (gm : String) (ms : List MonthRecord) (dy : List DailyRecord)
    (wk : List WeeklyRecord) (h : simulate gm = Except.ok (ms, dy, wk)) :
    ∀ r ∈ ms,
      r.actual_cashrake_paid = min r.expected_total_cashrake r.remaining_cap_before ∧
      r.actual_cashrake_paid ≤ r.expected_total_cashrake ∧
      r.actual_cashrake_paid ≤ r.remaining_cap_before := by
  intro r hr
  obtain ⟨hloop, -, -⟩ := simulate_ok_elim gm ms dy wk h
  obtain ⟨st1, st2, i, d, hstep⟩ := simLoop_records gm _ _ ms hloop r hr
  have hfacts := monthStep_ok gm st1 i d r st2 hstep
  have hmin := hfacts.2.2.2.2.2.2.2.2.2.2.2.2.2.2.1
  exact ⟨hmin, hmin ▸ min_le_left _ _, hmin ▸ min_le_right _ _⟩

theorem monthStep_good (gm : String) (st : SimState) (i : Nat) (d : Date)
    (r : MonthRecord) (st2 : SimState) (hgood : GoodState st)
    (h : monthStep gm st i d = Except.ok (r, st2)) :
    GoodState st2 ∧ st.lifetime_cap_used ≤ r.lifetime_cap_used ∧
    r.lifetime_cap_used ≤ r.lifetime_cap ∧
    st2.lifetime_cap_used = r.lifetime_cap_used := by
  obtain ⟨hcp, hld, hlcu, hcap⟩ := hgood
  obtain ⟨-, -, -, -, hpc, hdep, hldep, hlc, hrcb, hwag, hgro, hecb, herb,
    hetc, hpaid, hused, hrca, hacq, hnet, hs1, hs2, hs3⟩ :=
    monthStep_ok gm st i d r st2 h
  obtain ⟨hret, hnew, htot⟩ :=
    playerCounts_nonneg gm _ _ _ _ _ hpc hcp (get_growth_nonneg i)
  have hdep0 : 0 ≤ r.deposits := by
    rw [hdep]; exact mul_nonneg htot (by norm_num [AVG_DEPOSIT])
  have hld0 : 0 ≤ r.lifetime_deposits := by rw [hldep]; linarith
  have hldle : st.lifetime_deposits ≤ r.lifetime_deposits := by
    rw [hldep]; linarith
  have hcaple : st.lifetime_cap_used ≤ r.lifetime_cap := by
    rw [hlc]
    calc st.lifetime_cap_used ≤ st.lifetime_deposits * CAP_RATE := hcap
    _ ≤ r.lifetime_deposits * CAP_RATE := by
        apply mul_le_mul_of_nonneg_right hldle
        norm_num [CAP_RATE]
  have hwag0 : 0 ≤ r.total_wagering := by
    rw [hwag]; exact mul_nonneg hdep0 (by norm_num [WAGER_MULTIPLIER])
  have hetc0 : 0 ≤ r.expected_total_cashrake := by
    rw [hetc, hecb, herb]
    have h1 : 0 ≤ r.total_wagering * CASHBACK_PER_WAGER_FRAC :=
      mul_nonneg hwag0
        (by norm_num [CASHBACK_PER_WAGER_FRAC, HOUSE_EDGE, CASHBACK_RATE])
    have h2 : 0 ≤ r.total_wagering * RAKEBACK_PER_WAGER_FRAC :=
      mul_nonneg hwag0
        (by norm_num [RAKEBACK_PER_WAGER_FRAC, HOUSE_EDGE, RAKEBACK_RATE])
    linarith
  have hrcb0 : 0 ≤ r.remaining_cap_before := by rw [hrcb]; exact le_max_left _ _
  have hpaid0 : 0 ≤ r.actual_cashrake_paid := by
    rw [hpaid]; exact le_min hetc0 hrcb0
  have husedmono : st.lifetime_cap_used ≤ r.lifetime_cap_used := by
    rw [hused]; linarith
  have husedcap : r.lifetime_cap_used ≤ r.lifetime_cap := by
    have h1 : r.actual_cashrake_paid ≤ r.remaining_cap_before := by
      rw [hpaid]; exact min_le_right _ _
    have h2 : r.remaining_cap_before = r.lifetime_cap - st.lifetime_cap_used := by
      rw [hrcb]; exact max_eq_right (by linarith)
    rw [hused]; linarith
  refine ⟨⟨?_, ?_, ?_, ?_⟩, husedmono, husedcap, hs3⟩
  · rw [hs1]; exact htot
  · rw [hs2]; exact hld0
  · rw [hs3]; linarith
  · rw [hs3, hs2]
    have : r.lifetime_cap = r.lifetime_deposits * CAP_RATE := hlc
    linarith [husedcap]

theorem simLoop_cap_monotone (gm : String) :
    ∀ (entries : List (Nat × Date)) (st : SimState) (ms : List MonthRecord),
      GoodState st → simLoop gm entries st = Except.ok ms →
      (∀ r ∈ ms, st.lifetime_cap_used ≤ r.lifetime_cap_used ∧
        r.lifetime_cap_used ≤ r.lifetime_cap) ∧
      ms.Chain' (fun a b => a.lifetime_cap_used ≤ b.lifetime_cap_used) := by
  intro entries
  induction entries with
  | nil =>
    intro st ms hgood h
    simp only [simLoop, Except.ok.injEq] at h
    subst h
    exact ⟨by simp, by simp⟩
  | cons e rest ih =>
    intro st ms hgood h
    obtain ⟨r0, st2, tl, hstep, htl, hms⟩ := simLoop_cons_ok gm e.1 e.2 rest st ms h
    subst hms
    obtain ⟨hgood2, hmono, hcap, hs3⟩ := monthStep_good gm st e.1 e.2 r0 st2 hgood hstep
    obtain ⟨ihmem, ihchain⟩ := ih st2 tl hgood2 htl
    constructor
    · intro r hr
      rcases List.mem_cons.mp hr with h1 | h1
      · subst h1; exact ⟨hmono, hcap⟩
      · obtain ⟨ha, hb⟩ := ihmem r h1
        exact ⟨le_trans hmono (hs3 ▸ ha), hb⟩
    · rw [List.chain'_cons']
      refine ⟨?_, ihchain⟩
      intro y hy
      have hmem : y ∈ tl := by
        cases tl with
        | nil => simp at hy
        | cons a l => simp only [List.head?_cons, Option.mem_def,
            Option.some.injEq] at hy; subst hy; exact List.mem_cons_self _ _
      exact hs3 ▸ (ihmem y hmem).1

theorem initialState_good : GoodState ⟨STARTING_PLAYERS, 0, 0⟩ := by
  refine ⟨by norm_num [STARTING_PLAYERS], le_refl 0, le_refl 0, ?_⟩
  norm_num

/-- C2: across the months produced by `simulate`, `lifetime_cap_used` is
non-decreasing, never exceeds the month's lifetime cap
(`lifetime_deposits × CAP_RATE`), and
`remaining_cap_after = max 0 (lifetime_cap - lifetime_cap_used)`. -/
theorem claim_C2 (gm : String) (ms : List MonthRecord) (dy : List DailyRecord)
    (wk : List WeeklyRecord) (h : simulate gm = Except.ok (ms, dy, wk)) :
    ms.Chain' (fun a b => a.lifetime_cap_used ≤ b.lifetime_cap_used) ∧
    ∀ r ∈ ms, r.lifetime_cap_used ≤ r.lifetime_cap ∧
      r.lifetime_cap = r.lifetime_deposits * CAP_RATE ∧
      r.remaining_cap_after = max 0 (r.lifetime_cap - r.lifetime_cap_used) := by
  obtain ⟨hloop, -, -⟩ := simulate_ok_elim gm ms dy wk h
  obtain ⟨hmem, hchain⟩ :=
    simLoop_cap_monotone gm _ _ ms initialState_good hloop
  refine ⟨hchain, fun r hr => ⟨(hmem r hr).2, ?_, ?_⟩⟩
  · obtain ⟨st1, st2, i, d, hstep⟩ := simLoop_records gm _ _ ms hloop r hr
    exact (monthStep_ok gm st1 i d r st2 hstep).2.2.2.2.2.2.2.1
  · obtain ⟨st1, st2, i, d, hstep⟩ := simLoop_records gm _ _ ms hloop r hr
    exact (monthStep_ok gm st1 i d r st2 hstep).2.2.2.2.2.2.2.2.2.2.2.2.2.2.2.2.1

end CashRake

namespace CashRake

/-! ### Month 1 under the default constants -/

theorem simulate_ok_of_valid (gm : String)
    (hgm : gm = "retained_plus_new" ∨ gm = "simple_growth") :
    ∃ ms dy wk, simulate gm = Except.ok (ms, dy, wk) := by
  obtain ⟨ms, hms⟩ := simLoop_ok_of_valid gm hgm
    (List.enumFrom 1 (get_month_starts START_DATE MONTHS)) ⟨STARTING_PLAYERS, 0, 0⟩
  exact ⟨ms, dailyFromMonthly ms, weeklyFromDaily (dailyFromMonthly ms),
    by simp only [simulate, hms]⟩

theorem simulate_head (gm : String) (ms : List MonthRecord)
    (dy : List DailyRecord) (wk : List WeeklyRecord)
    (h : simulate gm = Except.ok (ms, dy, wk)) :
    ∃ r st2 tl, ms = r :: tl ∧
      monthStep gm ⟨STARTING_PLAYERS, 0, 0⟩ 1 ⟨2025, 11, 1⟩ =
        Except.ok (r, st2) := by
  obtain ⟨hloop, -, -⟩ := simulate_ok_elim gm ms dy wk h
  obtain ⟨rest, hrest⟩ := monthEntries_cons
  rw [hrest] at hloop
  obtain ⟨r, st2, tl, hstep, htl, hms⟩ := simLoop_cons_ok gm 1 _ rest _ ms hloop
  exact ⟨r, st2, tl, hms, hstep⟩

theorem month1_rpn (d : Date) (r : MonthRecord) (st2 : SimState)
    (hstep : monthStep "retained_plus_new" ⟨STARTING_PLAYERS, 0, 0⟩ 1 d =
      Except.ok (r, st2)) :
    r.month_index = 1 ∧ r.growth_param = 3 ∧ r.retained_players = 600 ∧
    r.new_players = 3000 ∧ r.total_players = 3600 ∧ r.net_profit = -42384 := by
  obtain ⟨him, hms, hgp, hgm, hpc, hdep, hldep, hlc, hrcb, hwag, hgro, hecb,
    herb, hetc, hpaid, hused, hrca, hacq, hnet, -, -, -⟩ :=
    monthStep_ok "retained_plus_new" ⟨STARTING_PLAYERS, 0, 0⟩ 1 d r st2 hstep
  have hg1 : get_growth_for_month 1 = 3 := rfl
  rw [hg1] at hgp hpc
  rw [playerCounts_rpn] at hpc
  simp only [Except.ok.injEq, Prod.mk.injEq] at hpc
  obtain ⟨hret, hnew, htot⟩ := hpc
  have hret' : r.retained_players = 600 := by
    rw [← hret]; norm_num [STARTING_PLAYERS, RETENTION_RATE]
  have hnew' : r.new_players = 3000 := by
    rw [← hnew]; norm_num [STARTING_PLAYERS]
  have htot' : r.total_players = 3600 := by
    rw [← htot]; norm_num [STARTING_PLAYERS, RETENTION_RATE]
  have hdep' : r.deposits = 360000 := by
    rw [hdep, htot']; norm_num [AVG_DEPOSIT]
  have hldep' : r.lifetime_deposits = 360000 := by
    rw [hldep, hdep']
    norm_num
  have hlc' : r.lifetime_cap = 118800 := by
    rw [hlc, hldep']; norm_num [CAP_RATE]
  have hrcb' : r.remaining_cap_before = 118800 := by
    rw [hrcb, hlc']
    norm_num
  have hwag' : r.total_wagering = 2520000 := by
    rw [hwag, hdep']; norm_num [WAGER_MULTIPLIER]
  have hecb' : r.expected_cashback = 3024 := by
    rw [hecb, hwag']
    norm_num [CASHBACK_PER_WAGER_FRAC, HOUSE_EDGE, CASHBACK_RATE]
  have herb' : r.expected_rakeback = 20160 := by
    rw [herb, hwag']
    norm_num [RAKEBACK_PER_WAGER_FRAC, HOUSE_EDGE, RAKEBACK_RATE]
  have hetc' : r.expected_total_cashrake = 23184 := by
    rw [hetc, hecb', herb']; norm_num
  have hpaid' : r.actual_cashrake_paid = 23184 := by
    rw [hpaid, hetc', hrcb']
    norm_num
  have hgro' : r.gross_revenue = 100800 := by
    rw [hgro, hwag']; norm_num [HOUSE_EDGE]
  have hacq' : r.acquisition_cost = 120000 := by
    rw [hacq, hnew']; norm_num [ACQ_COST_PER_PLAYER]
  have hnet' : r.net_profit = -42384 := by
    rw [hnet, hgro', hpaid', hacq']; norm_num
  exact ⟨him, hgp, hret', hnew', htot', hnet'⟩

theorem month1_sg (d : Date) (r : MonthRecord) (st2 : SimState)
    (hstep : monthStep "simple_growth" ⟨STARTING_PLAYERS, 0, 0⟩ 1 d =
      Except.ok (r, st2)) :
    r.month_index = 1 ∧ r.growth_param = 3 ∧ r.total_players = 4000 ∧
    r.retained_players = 600 ∧ r.new_players = 3400 := by
  obtain ⟨him, hms, hgp, hgm, hpc, -⟩ :=
    monthStep_ok "simple_growth" ⟨STARTING_PLAYERS, 0, 0⟩ 1 d r st2 hstep
  have hg1 : get_growth_for_month 1 = 3 := rfl
  rw [hg1] at hgp hpc
  rw [playerCounts_sg] at hpc
  simp only [Except.ok.injEq, Prod.mk.injEq] at hpc
  obtain ⟨hret, hnew, htot⟩ := hpc
  refine ⟨him, hgp, ?_, ?_, ?_⟩
  · rw [← htot]; norm_num [STARTING_PLAYERS]
  · rw [← hret]; norm_num [STARTING_PLAYERS, RETENTION_RATE]
  · rw [← hnew]
    norm_num [STARTING_PLAYERS, RETENTION_RATE]

/-- C7: under the default constants and the `retained_plus_new` model,
month 1 has growth parameter 3.0, 600 retained players, 3000 new players
and 3600 total players. -/
theorem claim_C7 :
    ∃ ms dy wk r tl, simulate "retained_plus_new" = Except.ok (ms, dy, wk) ∧
      ms = r :: tl ∧ r.month_index = 1 ∧ r.growth_param = 3 ∧
      r.retained_players = 600 ∧ r.new_players = 3000 ∧
      r.total_players = 3600 := by
  obtain ⟨ms, dy, wk, hsim⟩ := simulate_ok_of_valid _ (Or.inl rfl)
  obtain ⟨r, st2, tl, hms, hstep⟩ := simulate_head _ ms dy wk hsim
  obtain ⟨h1, h2, h3, h4, h5, -⟩ := month1_rpn _ r st2 hstep
  exact ⟨ms, dy, wk, r, tl, hsim, hms, h1, h2, h3, h4, h5⟩

/-- C8: under the default constants and the `simple_growth` model, month 1
has 4000 total players, 600 retained players and 3400 new players. -/
theorem claim_C8 :
    ∃ ms dy wk r tl, simulate "simple_growth" = Except.ok (ms, dy, wk) ∧
      ms = r :: tl ∧ r.month_index = 1 ∧ r.growth_param = 3 ∧
      r.total_players = 4000 ∧ r.retained_players = 600 ∧
      r.new_players = 3400 := by
  obtain ⟨ms, dy, wk, hsim⟩ := simulate_ok_of_valid _ (Or.inr rfl)
  obtain ⟨r, st2, tl, hms, hstep⟩ := simulate_head _ ms dy wk hsim
  obtain ⟨h1, h2, h3, h4, h5⟩ := month1_sg _ r st2 hstep
  exact ⟨ms, dy, wk, r, tl, hsim, hms, h1, h2, h3, h4, h5⟩

end CashRake

namespace CashRake

theorem monthStep_nonneg (gm : String) (st : SimState) (i : Nat) (d : Date)
    (r : MonthRecord) (st2 : SimState) (hgood : GoodState st)
    (h : monthStep gm st i d = Except.ok (r, st2)) :
    0 ≤ r.retained_players ∧ 0 ≤ r.new_players ∧ 0 ≤ r.total_players ∧
    0 ≤ r.deposits ∧ 0 ≤ r.lifetime_deposits ∧ 0 ≤ r.lifetime_cap ∧
    0 ≤ r.remaining_cap_before ∧ 0 ≤ r.expected_cashback ∧
    0 ≤ r.expected_rakeback ∧ 0 ≤ r.expected_total_cashrake ∧
    0 ≤ r.actual_cashrake_paid ∧ 0 ≤ r.lifetime_cap_used ∧
    0 ≤ r.remaining_cap_after ∧ 0 ≤ r.total_wagering ∧
    0 ≤ r.gross_revenue ∧ 0 ≤ r.acquisition_cost := by
  obtain ⟨hcp, hld, hlcu, hcap⟩ := hgood
  obtain ⟨-, -, -, -, hpc, hdep, hldep, hlc, hrcb, hwag, hgro, hecb, herb,
    hetc, hpaid, hused, hrca, hacq, hnet, -, -, -⟩ :=
    monthStep_ok gm st i d r st2 h
  obtain ⟨hret, hnew, htot⟩ :=
    playerCounts_nonneg gm _ _ _ _ _ hpc hcp (get_growth_nonneg i)
  have hdep0 : 0 ≤ r.deposits := by
    rw [hdep]; exact mul_nonneg htot (by norm_num [AVG_DEPOSIT])
  have hld0 : 0 ≤ r.lifetime_deposits := by rw [hldep]; linarith
  have hlc0 : 0 ≤ r.lifetime_cap := by
    rw [hlc]; exact mul_nonneg hld0 (by norm_num [CAP_RATE])
  have hrcb0 : 0 ≤ r.remaining_cap_before := by rw [hrcb]; exact le_max_left _ _
  have hwag0 : 0 ≤ r.total_wagering := by
    rw [hwag]; exact mul_nonneg hdep0 (by norm_num [WAGER_MULTIPLIER])
  have hecb0 : 0 ≤ r.expected_cashback := by
    rw [hecb]
    exact mul_nonneg hwag0
      (by norm_num [CASHBACK_PER_WAGER_FRAC, HOUSE_EDGE, CASHBACK_RATE])
  have herb0 : 0 ≤ r.expected_rakeback := by
    rw [herb]
    exact mul_nonneg hwag0
      (by norm_num [RAKEBACK_PER_WAGER_FRAC, HOUSE_EDGE, RAKEBACK_RATE])
  have hetc0 : 0 ≤ r.expected_total_cashrake := by rw [hetc]; linarith
  have hpaid0 : 0 ≤ r.actual_cashrake_paid := by
    rw [hpaid]; exact le_min hetc0 hrcb0
  have hused0 : 0 ≤ r.lifetime_cap_used := by rw [hused]; linarith
  have hrca0 : 0 ≤ r.remaining_cap_after := by rw [hrca]; exact le_max_left _ _
  have hgro0 : 0 ≤ r.gross_revenue := by
    rw [hgro]; exact mul_nonneg hwag0 (by norm_num [HOUSE_EDGE])
  have hacq0 : 0 ≤ r.acquisition_cost := by
    rw [hacq]; exact mul_nonneg hnew (by norm_num [ACQ_COST_PER_PLAYER])
  exact ⟨hret, hnew, htot, hdep0, hld0, hlc0, hrcb0, hecb0, herb0, hetc0,
    hpaid0, hused0, hrca0, hwag0, hgro0, hacq0⟩

theorem simLoop_nonneg (gm : String) :
    ∀ (entries : List (Nat × Date)) (st : SimState) (ms : List MonthRecord),
      GoodState st → simLoop gm entries st = Except.ok ms →
      ∀ r ∈ ms,
        0 ≤ r.retained_players ∧ 0 ≤ r.new_players ∧ 0 ≤ r.total_players ∧
        0 ≤ r.deposits ∧ 0 ≤ r.lifetime_deposits ∧ 0 ≤ r.lifetime_cap ∧
        0 ≤ r.remaining_cap_before ∧ 0 ≤ r.expected_cashback ∧
        0 ≤ r.expected_rakeback ∧ 0 ≤ r.expected_total_cashrake ∧
        0 ≤ r.actual_cashrake_paid ∧ 0 ≤ r.lifetime_cap_used ∧
        0 ≤ r.remaining_cap_after ∧ 0 ≤ r.total_wagering ∧
        0 ≤ r.gross_revenue ∧ 0 ≤ r.acquisition_cost := by
  intro entries
  induction entries with
  | nil =>
    intro st ms hgood h
    simp only [simLoop, Except.ok.injEq] at h
    subst h
    simp
  | cons e rest ih =>
    intro st ms hgood h
    obtain ⟨r0, st2, tl, hstep, htl, hms⟩ := simLoop_cons_ok gm e.1 e.2 rest st ms h
    subst hms
    have hgood2 := (monthStep_good gm st e.1 e.2 r0 st2 hgood hstep).1
    intro r hr
    rcases List.mem_cons.mp hr with h1 | h1
    · subst h1
      exact monthStep_nonneg gm st e.1 e.2 r st2 hgood hstep
    · exact ih st2 tl hgood2 htl r h1

/-- C10: with the fixed constants, every monthly field other than
`net_profit` is non-negative in every month `simulate` produces (either
model), while `net_profit` is negative in month 1 of the default
`retained_plus_new` run. -/
theorem claim_C10 (gm : String) (ms : List MonthRecord) (dy : List DailyRecord)
    (wk : List WeeklyRecord) (h : simulate gm = Except.ok (ms, dy, wk)) :
    (∀ r ∈ ms,
      0 ≤ r.retained_players ∧ 0 ≤ r.new_players ∧ 0 ≤ r.total_players ∧
      0 ≤ r.deposits ∧ 0 ≤ r.lifetime_deposits ∧ 0 ≤ r.lifetime_cap ∧
      0 ≤ r.remaining_cap_before ∧ 0 ≤ r.expected_cashback ∧
      0 ≤ r.expected_rakeback ∧ 0 ≤ r.expected_total_cashrake ∧
      0 ≤ r.actual_cashrake_paid ∧ 0 ≤ r.lifetime_cap_used ∧
      0 ≤ r.remaining_cap_after ∧ 0 ≤ r.total_wagering ∧
      0 ≤ r.gross_revenue ∧ 0 ≤ r.acquisition_cost) ∧
    (∃ ms2 dy2 wk2 r tl, simulate "retained_plus_new" = Except.ok (ms2, dy2, wk2) ∧
      ms2 = r :: tl ∧ r.net_profit < 0) := by
  obtain ⟨hloop, -, -⟩ := simulate_ok_elim gm ms dy wk h
  refine ⟨simLoop_nonneg gm _ _ ms initialState_good hloop, ?_⟩
  obtain ⟨ms2, dy2, wk2, hsim⟩ := simulate_ok_of_valid _ (Or.inl rfl)
  obtain ⟨r, st2, tl, hms2, hstep⟩ := simulate_head _ ms2 dy2 wk2 hsim
  obtain ⟨-, -, -, -, -, hnet⟩ := month1_rpn _ r st2 hstep
  exact ⟨ms2, dy2, wk2, r, tl, hsim, hms2, by rw [hnet]; norm_num⟩

/-- C10 witness: the default `retained_plus_new` run itself. -/
theorem claim_C10_witness :
    ∃ ms dy wk, simulate "retained_plus_new" = Except.ok (ms, dy, wk) ∧
      ((∀ r ∈ ms, 0 ≤ r.retained_players ∧ 0 ≤ r.new_players ∧
        0 ≤ r.total_players ∧ 0 ≤ r.deposits ∧ 0 ≤ r.lifetime_deposits ∧
        0 ≤ r.lifetime_cap ∧ 0 ≤ r.remaining_cap_before ∧
        0 ≤ r.expected_cashback ∧ 0 ≤ r.expected_rakeback ∧
        0 ≤ r.expected_total_cashrake ∧ 0 ≤ r.actual_cashrake_paid ∧
        0 ≤ r.lifetime_cap_used ∧ 0 ≤ r.remaining_cap_after ∧
        0 ≤ r.total_wagering ∧ 0 ≤ r.gross_revenue ∧
        0 ≤ r.acquisition_cost) ∧
      (∃ ms2 dy2 wk2 r tl, simulate "retained_plus_new" = Except.ok (ms2, dy2, wk2) ∧
        ms2 = r :: tl ∧ r.net_profit < 0)) := by
  obtain ⟨ms, dy, wk, hsim⟩ := simulate_ok_of_valid _ (Or.inl rfl)
  exact ⟨ms, dy, wk, hsim, claim_C10 "retained_plus_new" ms dy wk hsim⟩

end CashRake

namespace CashRake

/-- C1 witness: the default `retained_plus_new` run. -/
theorem claim_C1_witness :
    ∃ ms dy wk, simulate "retained_plus_new" = Except.ok (ms, dy, wk) ∧
      ∀ r ∈ ms,
        r.actual_cashrake_paid =
          min r.expected_total_cashrake r.remaining_cap_before ∧
        r.actual_cashrake_paid ≤ r.expected_total_cashrake ∧
        r.actual_cashrake_paid ≤ r.remaining_cap_before := by
  obtain ⟨ms, dy, wk, hsim⟩ := simulate_ok_of_valid _ (Or.inl rfl)
  exact ⟨ms, dy, wk, hsim, claim_C1 "retained_plus_new" ms dy wk hsim⟩

/-- C2 witness: the default `retained_plus_new` run. -/
theorem claim_C2_witness :
    ∃ ms dy wk, simulate "retained_plus_new" = Except.ok (ms, dy, wk) ∧
      ms.Chain' (fun a b => a.lifetime_cap_used ≤ b.lifetime_cap_used) ∧
      ∀ r ∈ ms, r.lifetime_cap_used ≤ r.lifetime_cap ∧
        r.lifetime_cap = r.lifetime_deposits * CAP_RATE ∧
        r.remaining_cap_after = max 0 (r.lifetime_cap - r.lifetime_cap_used) := by
  obtain ⟨ms, dy, wk, hsim⟩ := simulate_ok_of_valid _ (Or.inl rfl)
  exact ⟨ms, dy, wk, hsim, claim_C2 "retained_plus_new" ms dy wk hsim⟩

/-! ### Daily disaggregation properties -/

theorem month_days_pos (y m : Nat) : 0 < month_days y m := by
  unfold month_days
  split_ifs <;> norm_num

theorem list_sum_map_const {α : Type} (l : List α) (g : α → ℚ) (c : ℚ)
    (h : ∀ a ∈ l, g a = c) : (l.map g).sum = l.length * c := by
  induction l with
  | nil => simp
  | cons a t ih =>
    rw [List.map_cons, List.sum_cons, h a (List.mem_cons_self a t),
      ih (fun b hb => h b (List.mem_cons_of_mem a hb)), List.length_cons]
    push_cast
    ring

theorem dailyForMonth_length (r : MonthRecord) :
    (dailyForMonth r).length =
      month_days r.month_start.year r.month_start.month := by
  simp [dailyForMonth]

theorem dailyForMonth_fields (r : MonthRecord) :
    ∀ d ∈ dailyForMonth r,
      d.date.year = r.month_start.year ∧ d.date.month = r.month_start.month ∧
      d.month_index = r.month_index ∧
      d.players = r.total_players *
        (1 / month_days r.month_start.year r.month_start.month) ∧
      d.deposits = r.deposits *
        (1 / month_days r.month_start.year r.month_start.month) ∧
      d.total_wagering = r.total_wagering *
        (1 / month_days r.month_start.year r.month_start.month) ∧
      d.gross_revenue = r.gross_revenue *
        (1 / month_days r.month_start.year r.month_start.month) ∧
      d.expected_cashback = r.expected_cashback *
        (1 / month_days r.month_start.year r.month_start.month) ∧
      d.expected_rakeback = r.expected_rakeback *
        (1 / month_days r.month_start.year r.month_start.month) ∧
      d.expected_total_cashrake = r.expected_total_cashrake *
        (1 / month_days r.month_start.year r.month_start.month) ∧
      d.actual_cashrake_paid = r.actual_cashrake_paid *
        (1 / month_days r.month_start.year r.month_start.month) ∧
      d.acquisition_cost = r.acquisition_cost *
        (1 / month_days r.month_start.year r.month_start.month) ∧
      d.net_profit = r.net_profit *
        (1 / month_days r.month_start.year r.month_start.month) := by
  intro d hd
  simp only [dailyForMonth, List.mem_map, List.mem_range] at hd
  obtain ⟨i, hi, rfl⟩ := hd
  exact ⟨rfl, rfl, rfl, rfl, rfl, rfl, rfl, rfl, rfl, rfl, rfl, rfl, rfl⟩

/-- C3: the disaggregator emits one row per calendar day of the month
(leap-year-aware day count), each numeric field is the month's value
divided by the day count, and each field sums back to the month's total
exactly over `ℚ`. -/
theorem claim_C3 (r : MonthRecord) :
    (dailyForMonth r).length =
      month_days r.month_start.year r.month_start.month ∧
    0 < month_days r.month_start.year r.month_start.month ∧
    (dailyForMonth r).map DailyRecord.date =
      (List.range (month_days r.month_start.year r.month_start.month)).map
        (fun i => ⟨r.month_start.year, r.month_start.month, i + 1⟩) ∧
    (∀ d ∈ dailyForMonth r,
      d.month_index = r.month_index ∧
      d.players = r.total_players /
        month_days r.month_start.year r.month_start.month ∧
      d.deposits = r.deposits /
        month_days r.month_start.year r.month_start.month ∧
      d.total_wagering = r.total_wagering /
        month_days r.month_start.year r.month_start.month ∧
      d.gross_revenue = r.gross_revenue /
        month_days r.month_start.year r.month_start.month ∧
      d.expected_cashback = r.expected_cashback /
        month_days r.month_start.year r.month_start.month ∧
      d.expected_rakeback = r.expected_rakeback /
        month_days r.month_start.year r.month_start.month ∧
      d.expected_total_cashrake = r.expected_total_cashrake /
        month_days r.month_start.year r.month_start.month ∧
      d.actual_cashrake_paid = r.actual_cashrake_paid /
        month_days r.month_start.year r.month_start.month ∧
      d.acquisition_cost = r.acquisition_cost /
        month_days r.month_start.year r.month_start.month ∧
      d.net_profit = r.net_profit /
        month_days r.month_start.year r.month_start.month) ∧
    ((dailyForMonth r).map DailyRecord.players).sum = r.total_players ∧
    ((dailyForMonth r).map DailyRecord.deposits).sum = r.deposits ∧
    ((dailyForMonth r).map DailyRecord.total_wagering).sum = r.total_wagering ∧
    ((dailyForMonth r).map DailyRecord.gross_revenue).sum = r.gross_revenue ∧
    ((dailyForMonth r).map DailyRecord.expected_cashback).sum =
      r.expected_cashback ∧
    ((dailyForMonth r).map DailyRecord.expected_rakeback).sum =
      r.expected_rakeback ∧
    ((dailyForMonth r).map DailyRecord.expected_total_cashrake).sum =
      r.expected_total_cashrake ∧
    ((dailyForMonth r).map DailyRecord.actual_cashrake_paid).sum =
      r.actual_cashrake_paid ∧
    ((dailyForMonth r).map DailyRecord.acquisition_cost).sum =
      r.acquisition_cost ∧
    ((dailyForMonth r).map DailyRecord.net_profit).sum = r.net_profit := by
  have hpos := month_days_pos r.month_start.year r.month_start.month
  have hne : (month_days r.month_start.year r.month_start.month : ℚ) ≠ 0 :=
    Nat.cast_ne_zero.mpr hpos.ne'
  have hlen := dailyForMonth_length r
  have hmem := dailyForMonth_fields r
  have hsum : ∀ (g : DailyRecord → ℚ) (x : ℚ),
      (∀ d ∈ dailyForMonth r,
        g d = x * (1 / month_days r.month_start.year r.month_start.month)) →
      ((dailyForMonth r).map g).sum = x := by
    intro g x hg
    rw [list_sum_map_const _ g _ hg, hlen]
    field_simp
  refine ⟨hlen, hpos, ?_, ?_, ?_, ?_, ?_, ?_, ?_, ?_, ?_, ?_, ?_, ?_⟩
  · simp only [dailyForMonth, List.map_map]
    rfl
  · intro d hd
    obtain ⟨-, -, h3, h4, h5, h6, h7, h8, h9, h10, h11, h12, h13⟩ := hmem d hd
    rw [mul_one_div] at h4 h5 h6 h7 h8 h9 h10 h11 h12 h13
    exact ⟨h3, h4, h5, h6, h7, h8, h9, h10, h11, h12, h13⟩
  · exact hsum _ _ (fun d hd => (hmem d hd).2.2.2.1)
  · exact hsum _ _ (fun d hd => (hmem d hd).2.2.2.2.1)
  · exact hsum _ _ (fun d hd => (hmem d hd).2.2.2.2.2.1)
  · exact hsum _ _ (fun d hd => (hmem d hd).2.2.2.2.2.2.1)
  · exact hsum _ _ (fun d hd => (hmem d hd).2.2.2.2.2.2.2.1)
  · exact hsum _ _ (fun d hd => (hmem d hd).2.2.2.2.2.2.2.2.1)
  · exact hsum _ _ (fun d hd => (hmem d hd).2.2.2.2.2.2.2.2.2.1)
  · exact hsum _ _ (fun d hd => (hmem d hd).2.2.2.2.2.2.2.2.2.2.1)
  · exact hsum _ _ (fun d hd => (hmem d hd).2.2.2.2.2.2.2.2.2.2.2.1)
  · exact hsum _ _ (fun d hd => (hmem d hd).2.2.2.2.2.2.2.2.2.2.2.2)

end CashRake

namespace CashRake

/-! ### Weekly aggregation properties -/

theorem mem_insertKey (k a : Int) :
    ∀ l : List Int, a ∈ insertKey k l ↔ a = k ∨ a ∈ l := by
  intro l
  induction l with
  | nil => simp [insertKey]
  | cons x xs ih =>
    simp only [insertKey]
    split_ifs with h1 h2
    · simp only [List.mem_cons]
    · subst h2
      simp only [List.mem_cons]
      tauto
    · simp only [List.mem_cons, ih]
      tauto

theorem sorted_insertKey (k : Int) :
    ∀ l : List Int, l.Sorted (· < ·) → (insertKey k l).Sorted (· < ·) := by
  intro l
  induction l with
  | nil => intro _; simp [insertKey]
  | cons x xs ih =>
    intro hs
    rw [List.sorted_cons] at hs
    obtain ⟨hx, hxs⟩ := hs
    simp only [insertKey]
    split_ifs with h1 h2
    · rw [List.sorted_cons]
      refine ⟨fun b hb => ?_, List.sorted_cons.mpr ⟨hx, hxs⟩⟩
      rcases List.mem_cons.mp hb with rfl | hb
      · exact h1
      · exact lt_trans h1 (hx b hb)
    · exact List.sorted_cons.mpr ⟨hx, hxs⟩
    · rw [List.sorted_cons]
      refine ⟨fun b hb => ?_, ih hxs⟩
      rcases (mem_insertKey k b xs).mp hb with rfl | hb
      · omega
      · exact hx b hb

theorem sortedKeys_sorted (l : List Int) : (sortedKeys l).Sorted (· < ·) := by
  induction l with
  | nil => simp [sortedKeys]
  | cons a t ih => exact sorted_insertKey a (sortedKeys t) ih

theorem mem_sortedKeys (l : List Int) (a : Int) : a ∈ sortedKeys l ↔ a ∈ l := by
  induction l with
  | nil => simp [sortedKeys]
  | cons b t ih =>
    rw [show sortedKeys (b :: t) = insertKey b (sortedKeys t) from rfl,
      mem_insertKey, ih, List.mem_cons]

theorem weeklyFromDaily_keys (daily : List DailyRecord) :
    (weeklyFromDaily daily).map WeeklyRecord.week_start =
      sortedKeys (daily.map fun d => week_start_key d.date) := by
  simp only [weeklyFromDaily, List.map_map]
  rw [show (WeeklyRecord.week_start ∘ sumWeek daily) = id from rfl, List.map_id]

/-- C4: the weekly table has exactly one row per distinct Monday-start
week key of the daily records, rows in ascending (chronological) key
order, every numeric field of a row being exactly the sum of that field
over the daily records of that week; the week key of a date is the
Monday on or before it. -/
theorem claim_C4 (daily : List DailyRecord) :
    ((weeklyFromDaily daily).map WeeklyRecord.week_start).Sorted (· < ·) ∧
    ((weeklyFromDaily daily).map WeeklyRecord.week_start).Nodup ∧
    (∀ k : Int, k ∈ (weeklyFromDaily daily).map WeeklyRecord.week_start ↔
      ∃ d ∈ daily, week_start_key d.date = k) ∧
    (∀ w ∈ weeklyFromDaily daily,
      w.month_index = ((daily.filter fun d =>
        week_start_key d.date = w.week_start).map DailyRecord.month_index).sum ∧
      w.players = ((daily.filter fun d =>
        week_start_key d.date = w.week_start).map DailyRecord.players).sum ∧
      w.deposits = ((daily.filter fun d =>
        week_start_key d.date = w.week_start).map DailyRecord.deposits).sum ∧
      w.total_wagering = ((daily.filter fun d =>
        week_start_key d.date = w.week_start).map DailyRecord.total_wagering).sum ∧
      w.gross_revenue = ((daily.filter fun d =>
        week_start_key d.date = w.week_start).map DailyRecord.gross_revenue).sum ∧
      w.expected_cashback = ((daily.filter fun d =>
        week_start_key d.date = w.week_start).map DailyRecord.expected_cashback).sum ∧
      w.expected_rakeback = ((daily.filter fun d =>
        week_start_key d.date = w.week_start).map DailyRecord.expected_rakeback).sum ∧
      w.expected_total_cashrake = ((daily.filter fun d =>
        week_start_key d.date = w.week_start).map DailyRecord.expected_total_cashrake).sum ∧
      w.actual_cashrake_paid = ((daily.filter fun d =>
        week_start_key d.date = w.week_start).map DailyRecord.actual_cashrake_paid).sum ∧
      w.acquisition_cost = ((daily.filter fun d =>
        week_start_key d.date = w.week_start).map DailyRecord.acquisition_cost).sum ∧
      w.net_profit = ((daily.filter fun d =>
        week_start_key d.date = w.week_start).map DailyRecord.net_profit).sum) ∧
    (∀ d ∈ daily,
      week_start_key d.date ≤ (dayNumber d.date : Int) ∧
      (dayNumber d.date : Int) < week_start_key d.date + 7 ∧
      week_start_key d.date % 7 = 5) := by
  refine ⟨?_, ?_, ?_, ?_, ?_⟩
  · rw [weeklyFromDaily_keys]
    exact sortedKeys_sorted _
  · rw [weeklyFromDaily_keys]
    exact (sortedKeys_sorted _).nodup
  · intro k
    rw [weeklyFromDaily_keys, mem_sortedKeys, List.mem_map]
  · intro w hw
    obtain ⟨k, hk, rfl⟩ := List.mem_map.mp hw
    exact ⟨rfl, rfl, rfl, rfl, rfl, rfl, rfl, rfl, rfl, rfl, rfl⟩
  · intro d hd
    simp only [week_start_key]
    omega

end CashRake

namespace CashRake

/-! ### Month-start normalization -/

theorem dailyForMonth_dates (r : MonthRecord) :
    (dailyForMonth r).map DailyRecord.date =
      (List.range (month_days r.month_start.year r.month_start.month)).map
        (fun i => ⟨r.month_start.year, r.month_start.month, i + 1⟩) := by
  simp only [dailyForMonth, List.map_map]
  rfl

/-- C9: `simulate` normalizes the schedule to first-of-month dates: every
month start has day 1, the first month start is the first day of the start
date's calendar month (not the start date itself), and the daily table's
first month covers 2025-11-01 through 2025-11-30. -/
theorem claim_C9 :
    (∀ (s : Date) (n : Nat), ∀ d ∈ get_month_starts s n, d.day = 1) ∧
    (∀ (s : Date) (n : Nat), 1 ≤ s.month → s.month ≤ 12 → 0 < n →
      (get_month_starts s n).head? = some ⟨s.year, s.month, 1⟩) ∧
    (∀ (gm : String) (ms : List MonthRecord) (dy : List DailyRecord)
      (wk : List WeeklyRecord) (r : MonthRecord) (tl : List MonthRecord),
      simulate gm = Except.ok (ms, dy, wk) → ms = r :: tl →
      r.month_start = ⟨2025, 11, 1⟩ ∧
      (dailyForMonth r).map DailyRecord.date =
        (List.range 30).map (fun i => ⟨2025, 11, i + 1⟩) ∧
      dy = dailyForMonth r ++ dailyFromMonthly tl) := by
  refine ⟨?_, ?_, ?_⟩
  · intro s n d hd
    simp only [get_month_starts, List.mem_map] at hd
    obtain ⟨i, hi, rfl⟩ := hd
    rfl
  · intro s n h1 h2 hn
    obtain ⟨k, rfl⟩ : ∃ k, n = k + 1 := ⟨n - 1, by omega⟩
    simp only [get_month_starts, List.range_succ_eq_map, List.map_cons,
      List.head?_cons, addMonths, Option.some.injEq, Date.mk.injEq]
    have hlt : s.month - 1 < 12 := by omega
    rw [Nat.add_zero, Nat.div_eq_of_lt hlt, Nat.mod_eq_of_lt hlt]
    refine ⟨by omega, by omega, trivial⟩
  · intro gm ms dy wk r tl hsim hms
    obtain ⟨r', st2, tl', hms', hstep⟩ := simulate_head gm ms dy wk hsim
    rw [hms] at hms'
    obtain ⟨he1, he2⟩ := List.cons.injEq r tl r' tl' ▸ hms'
    subst he1
    subst he2
    have hmonth := (monthStep_ok gm ⟨STARTING_PLAYERS, 0, 0⟩ 1
      ⟨2025, 11, 1⟩ r st2 hstep).2.1
    refine ⟨hmonth, ?_, ?_⟩
    · rw [dailyForMonth_dates]
      simp only [hmonth]
      rfl
    · obtain ⟨-, hdy, -⟩ := simulate_ok_elim gm ms dy wk hsim
      rw [hdy, hms]
      simp [dailyFromMonthly, List.flatMap_cons]

/-- C9 witness: the configured start date 2025-11-23 and the default run. -/
theorem claim_C9_witness :
    (get_month_starts START_DATE MONTHS).head? = some ⟨2025, 11, 1⟩ ∧
    (⟨2026, 10, 1⟩ : Date).day = 1 ∧
    (∃ ms dy wk r tl, simulate "retained_plus_new" = Except.ok (ms, dy, wk) ∧
      ms = r :: tl ∧ r.month_start = ⟨2025, 11, 1⟩ ∧
      (dailyForMonth r).map DailyRecord.date =
        (List.range 30).map (fun i => ⟨2025, 11, i + 1⟩) ∧
      dy = dailyForMonth r ++ dailyFromMonthly tl) := by
  refine ⟨?_, ?_, ?_⟩
  · exact claim_C9.2.1 START_DATE MONTHS (by decide) (by decide) (by decide)
  · exact claim_C9.1 START_DATE MONTHS ⟨2026, 10, 1⟩ (by decide)
  · obtain ⟨ms, dy, wk, hsim⟩ := simulate_ok_of_valid _ (Or.inl rfl)
    obtain ⟨r, st2, tl, hms, -⟩ := simulate_head _ ms dy wk hsim
    obtain ⟨h1, h2, h3⟩ := claim_C9.2.2 "retained_plus_new" ms dy wk r tl hsim hms
    exact ⟨ms, dy, wk, r, tl, hsim, hms, h1, h2, h3⟩

/-! ### Concrete test instances -/

/-- The month-1 row of the default `retained_plus_new` run, as a concrete
instance for evaluating the derived-table builders. -/
def month1_record : MonthRecord :=
  ⟨1, ⟨2025, 11, 1⟩, 3, "retained_plus_new", 600, 3000, 3600, 360000,
    360000, 118800, 118800, 3024, 20160, 23184, 23184, 23184, 95616,
    2520000, 100800, 120000, -42384⟩

/-- C3 witness: the concrete month-1 row; November 2025 has 30 days and
the even split of 360000 in deposits is 12000 per day. -/
theorem claim_C3_witness :
    (dailyForMonth month1_record).length = 30 ∧
    ((dailyForMonth month1_record).map DailyRecord.deposits).sum = 360000 ∧
    ∃ d0 ∈ dailyForMonth month1_record, d0.deposits = 12000 := by
  obtain ⟨hlen, hpos, -, hfields, -, hdep, -⟩ := claim_C3 month1_record
  refine ⟨hlen, hdep, ?_⟩
  have hpos' : 0 < (dailyForMonth month1_record).length := by
    rw [hlen]; decide
  obtain ⟨d0, hd0⟩ := List.exists_mem_of_length_pos hpos'
  refine ⟨d0, hd0, ?_⟩
  rw [(hfields d0 hd0).2.2.1]
  norm_num [show month_days month1_record.month_start.year
      month1_record.month_start.month = 30 from rfl,
    show month1_record.deposits = (360000 : ℚ) from rfl]

/-- A concrete daily row on Sunday 2025-11-23. -/
def sampleDaily1 : DailyRecord :=
  ⟨⟨2025, 11, 23⟩, 1, 1, 1, 1, 1, 1, 1, 1, 1, 1, 1⟩

/-- A concrete daily row on Monday 2025-11-24 (the next calendar week). -/
def sampleDaily2 : DailyRecord :=
  ⟨⟨2025, 11, 24⟩, 1, 2, 2, 2, 2, 2, 2, 2, 2, 2, 2⟩

/-- C4 witness: two daily rows in adjacent Monday-start weeks. -/
theorem claim_C4_witness :
    ((weeklyFromDaily [sampleDaily1, sampleDaily2]).map
      WeeklyRecord.week_start).Sorted (· < ·) ∧
    ((weeklyFromDaily [sampleDaily1, sampleDaily2]).map
      WeeklyRecord.week_start).Nodup ∧
    (739877 : Int) ∈ (weeklyFromDaily [sampleDaily1, sampleDaily2]).map
      WeeklyRecord.week_start ∧
    (∃ w ∈ weeklyFromDaily [sampleDaily1, sampleDaily2],
      w.week_start = 739877 ∧
      w.deposits = (([sampleDaily1, sampleDaily2].filter fun d =>
        week_start_key d.date = (739877 : Int)).map DailyRecord.deposits).sum) ∧
    week_start_key ⟨2025, 11, 23⟩ % 7 = 5 := by
  have th := claim_C4 [sampleDaily1, sampleDaily2]
  have hk : week_start_key sampleDaily1.date = 739877 := by decide
  refine ⟨th.1, th.2.1, ?_, ?_, ?_⟩
  · exact (th.2.2.1 739877).mpr ⟨sampleDaily1, by simp, hk⟩
  · obtain ⟨w, hw, hwk⟩ :=
      List.mem_map.mp ((th.2.2.1 739877).mpr ⟨sampleDaily1, by simp, hk⟩)
    have hsum := (th.2.2.2.1 w hw).2.2.1
    simp only [hwk] at hsum
    exact ⟨w, hw, hwk, hsum⟩
  · exact (th.2.2.2.2 sampleDaily1 (by simp)).2.2

end CashRake
